import Mathlib

/-!
# LaunchWaitlist — verification of the match/wallet settlement core

Shallow embedding of the server's in-memory storage (`MemStorage`,
server/storage.ts) and the route handlers (server/routes.ts) of the
LaunchWaitlist gaming platform, together with proofs/refutations of the
frozen specification claims.

Modelling conventions:
* Money amounts (stored as decimal strings and passed through
  `parseFloat` in the source) are modelled as exact rationals `ℚ`;
  `parseFloat(x.toString())` is the identity in this model.
* Timestamps are modelled at day granularity as `ℤ` (the only
  date arithmetic the verified code performs is `setDate(+k)` and
  midnight-normalised equality, which is addition/equality on days).
  Handlers receive the current instant `now : ℤ` explicitly.
* The JS `Map` keyed by `id` is modelled as an insertion-ordered list
  with unique ids; `map.set(id, v)` on an existing key is replacement
  of the entry with that id, `map.set(freshId, v)` is `++ [v]`.
* `description` / `metadata` strings of transactions and cosmetic
  user-profile fields carry no logic and are omitted from the records.
-/

namespace LaunchWaitlist

set_option maxRecDepth 2000

/-- Money amounts: exact rationals (JS numbers / decimal strings). -/
abbrev Money := ℚ

/-- JavaScript `Math.round`: round half toward +∞. -/
def jsRound (x : ℚ) : ℤ := ⌊x + 1/2⌋

/-- Model of `Math.round(x * 100) / 100` — round to 2 decimal places, half-up
(for the non-negative amounts occurring here this also models
`Number.prototype.toFixed(2)` re-parsed by `parseFloat`). -/
def round2 (x : ℚ) : ℚ := (jsRound (x * 100) : ℚ) / 100

/-- Wallet row (shared/schema.ts `wallets`). -/
structure Wallet where
  id : Nat
  userId : Nat
  balance : Money
deriving DecidableEq, Repr

/-- Transaction row (shared/schema.ts `transactions`). `description`
and `metadata` are free-text audit fields and are not modelled. -/
structure Transaction where
  id : Nat
  userId : Nat
  amount : Money
  type : String
  status : String
  commissionAmount : Money
deriving DecidableEq, Repr

/-- Game catalog row (shared/schema.ts `games`). -/
structure Game where
  id : Nat
  name : String
  minEntry : Money
  maxEntry : Money
  commissionPercentage : Money
  isActive : Bool
deriving DecidableEq, Repr

/-- Match row (shared/schema.ts `gameMatches`). -/
structure GameMatch where
  id : Nat
  gameId : Nat
  entryAmount : Money
  status : String
  winnerId : Option Nat
  startTime : Option ℤ
  endTime : Option ℤ
deriving DecidableEq, Repr

/-- Player/match join row (shared/schema.ts `playerMatches`). -/
structure PlayerMatch where
  id : Nat
  matchId : Nat
  userId : Nat
  status : String
deriving DecidableEq, Repr

/-- User row; only the fields the settlement core reads are kept
(id, username for the AI-player lookup, subscription expiry for the
commission discount). -/
structure User where
  id : Nat
  username : String
  hasSubscription : Bool
  subscriptionExpiryDate : Option ℤ
deriving DecidableEq, Repr

/-- Subscription row (shared/schema.ts `subscriptions`). -/
structure Subscription where
  id : Nat
  userId : Nat
  name : String
  amount : Money
  rewardAmount : Money
  duration : Nat
  startDate : ℤ
  endDate : ℤ
  status : String
deriving DecidableEq, Repr

/-- Daily subscription reward row (shared/schema.ts
`subscriptionRewards`). -/
structure SubscriptionReward where
  id : Nat
  subscriptionId : Nat
  userId : Nat
  amount : Money
  day : Nat
  status : String
  paidAt : Option ℤ
deriving DecidableEq, Repr

/-- The in-memory storage (`MemStorage`, server/storage.ts): one
insertion-ordered list per entity map plus the id counters. -/
structure Storage where
  users : List User
  wallets : List Wallet
  transactions : List Transaction
  games : List Game
  gameMatches : List GameMatch
  playerMatches : List PlayerMatch
  subscriptions : List Subscription
  subscriptionRewards : List SubscriptionReward
  userIdCounter : Nat
  walletIdCounter : Nat
  transactionIdCounter : Nat
  gameMatchIdCounter : Nat
  playerMatchIdCounter : Nat
  subscriptionIdCounter : Nat
  subscriptionRewardIdCounter : Nat
deriving DecidableEq, Repr

/-- Model of `MemStorage.getWallet`: first wallet whose `userId` matches. -/
def getWallet (s : Storage) (userId : Nat) : Option Wallet :=
  s.wallets.find? (fun w => w.userId = userId)

/-- Model of `MemStorage.updateWalletBalance` (server/storage.ts 315-331):
read the wallet, compute `current + amount`, reject (return `none`,
storage untouched) if the result would be negative, otherwise write
the new balance back under the wallet's id. -/
def updateWalletBalance (s : Storage) (userId : Nat) (amount : Money) :
    Option Wallet × Storage :=
  match getWallet s userId with
  | none => (none, s)
  | some wallet =>
    let currentBalance := wallet.balance
    let newBalance := currentBalance + amount
    if newBalance < 0 then (none, s)
    else
      let updatedWallet := { wallet with balance := newBalance }
      (some updatedWallet,
        { s with wallets :=
            s.wallets.map (fun x => if x.id = wallet.id then updatedWallet else x) })

/-- Model of `MemStorage.createTransaction`: assign the next id and append. -/
def createTransaction (s : Storage)
    (userId : Nat) (amount : Money) (type status : String)
    (commissionAmount : Money) : Transaction × Storage :=
  let t : Transaction :=
    { id := s.transactionIdCounter, userId := userId, amount := amount,
      type := type, status := status, commissionAmount := commissionAmount }
  (t, { s with
        transactions := s.transactions ++ [t],
        transactionIdCounter := s.transactionIdCounter + 1 })

/-- Model of `MemStorage.getUser`. -/
def getUser (s : Storage) (id : Nat) : Option User :=
  s.users.find? (fun u => u.id = id)

/-- Model of `MemStorage.getUserByUsername` (case-insensitive in the source;
the usernames in play differ beyond case, so plain equality is used). -/
def getUserByUsername (s : Storage) (username : String) : Option User :=
  s.users.find? (fun u => u.username = username)

/-- Model of `MemStorage.getGame`. -/
def getGame (s : Storage) (id : Nat) : Option Game :=
  s.games.find? (fun g => g.id = id)

/-- Model of `MemStorage.getGameMatch`. -/
def getGameMatch (s : Storage) (id : Nat) : Option GameMatch :=
  s.gameMatches.find? (fun m => m.id = id)

/-- A partial-field update for `MemStorage.updateGameMatch`
(`{ ...match, ...matchData }`: present fields override). -/
structure GameMatchPatch where
  status : Option String := none
  winnerId : Option (Option Nat) := none
  startTime : Option (Option ℤ) := none
  endTime : Option (Option ℤ) := none

/-- Model of `MemStorage.updateGameMatch`: merge the patch into the stored row. -/
def updateGameMatch (s : Storage) (id : Nat) (p : GameMatchPatch) :
    Option GameMatch × Storage :=
  match s.gameMatches.find? (fun m => m.id = id) with
  | none => (none, s)
  | some m =>
    let updated : GameMatch :=
      { m with status := p.status.getD m.status,
               winnerId := p.winnerId.getD m.winnerId,
               startTime := p.startTime.getD m.startTime,
               endTime := p.endTime.getD m.endTime }
    (some updated,
      { s with gameMatches :=
          s.gameMatches.map (fun x => if x.id = id then updated else x) })

/-- Model of `MemStorage.getMatchPlayers`: all join rows of a match. -/
def getMatchPlayers (s : Storage) (matchId : Nat) : List PlayerMatch :=
  s.playerMatches.filter (fun pm => pm.matchId = matchId)

/-- Model of `MemStorage.addPlayerToMatch`. -/
def addPlayerToMatch (s : Storage) (matchId userId : Nat) (status : String) :
    PlayerMatch × Storage :=
  let pm : PlayerMatch :=
    { id := s.playerMatchIdCounter, matchId := matchId, userId := userId,
      status := status }
  (pm, { s with
         playerMatches := s.playerMatches ++ [pm],
         playerMatchIdCounter := s.playerMatchIdCounter + 1 })

/-- Model of `MemStorage.updatePlayerMatchStatus`. -/
def updatePlayerMatchStatus (s : Storage) (id : Nat) (status : String) :
    Option PlayerMatch × Storage :=
  match s.playerMatches.find? (fun pm => pm.id = id) with
  | none => (none, s)
  | some pm =>
    let updated := { pm with status := status }
    (some updated,
      { s with playerMatches :=
          s.playerMatches.map (fun x => if x.id = id then updated else x) })

/-- Model of `calculateCommission` (server/routes.ts 1170-1182): the game-prize
commission used by match completion. Returns 0 on non-positive inputs,
applies the 25% subscriber discount, and returns the raw (unrounded)
`amount * adjustedPercentage / 100`. -/
def calculateCommission (amount percentage : ℚ) (hasSubscription : Bool) : ℚ :=
  if amount ≤ 0 ∨ percentage ≤ 0 then 0
  else
    let adjustedPercentage :=
      if hasSubscription then percentage * (3/4) else percentage
    (amount * adjustedPercentage) / 100

/-- Model of `calculateGameCommission` (client/src/lib/utils/commission.ts
33-52): same formula but rounded to 2 decimal places with
`Math.round(commission * 100) / 100`. -/
def calculateGameCommission (prizePool commissionPercentage : ℚ)
    (hasSubscription : Bool) : ℚ :=
  if prizePool ≤ 0 ∨ commissionPercentage ≤ 0 then 0
  else
    let adjustedCommissionPercentage :=
      if hasSubscription then commissionPercentage * (3/4)
      else commissionPercentage
    round2 ((prizePool * adjustedCommissionPercentage) / 100)

/-- An HTTP-level failure result: status code plus message (template
interpolations and apostrophes of the source messages elided). -/
structure Failure where
  status : Nat
  message : String
deriving DecidableEq, Repr

/-- The per-player fee-deduction loop of `POST /api/matches/:id/start`
(server/routes.ts 1450-1477). An early `return` inside the JS loop
leaves the mutations already applied to the shared storage, so the
loop threads the storage through and returns it alongside the error. -/
def startDeductLoop (players : List PlayerMatch) (entryAmount : Money)
    (s : Storage) : Option Failure × Storage :=
  match players with
  | [] => (none, s)
  | player :: rest =>
    match getWallet s player.userId with
    | none => (some ⟨400, "Player does not have a wallet"⟩, s)
    | some wallet =>
      if wallet.balance < entryAmount then
        (some ⟨400, "Player does not have enough balance"⟩, s)
      else
        let s := (updateWalletBalance s player.userId (-entryAmount)).2
        let s := (createTransaction s player.userId (-entryAmount)
                    "game_entry" "completed" 0).2
        startDeductLoop rest entryAmount s

/-- Model of `POST /api/matches/:id/start` (server/routes.ts 1416-1496): guard
that the match exists and is `waiting`, has at least 2 players, and
that the requester is one of them; then run the deduction loop and, if
it succeeded, move the match to `in_progress` with a start time. -/
def startMatch (s : Storage) (matchId userId : Nat) (now : ℤ) :
    Option Failure × Storage :=
  match getGameMatch s matchId with
  | none => (some ⟨404, "Match not found"⟩, s)
  | some m =>
    if m.status ≠ "waiting" then
      (some ⟨400, "Match is not in waiting status"⟩, s)
    else
      let players := getMatchPlayers s matchId
      if players.length < 2 then
        (some ⟨400, "Need at least 2 players to start the match"⟩, s)
      else if ¬ players.any (fun p => p.userId = userId) then
        (some ⟨403, "You are not part of this match"⟩, s)
      else
        match getGame s m.gameId with
        | none => (some ⟨404, "Game not found"⟩, s)
        | some _game =>
          let entryAmount := m.entryAmount
          match startDeductLoop players entryAmount s with
          | (some e, s) => (some e, s)
          | (none, s) =>
            let s := (updateGameMatch s matchId
                        { status := some "in_progress",
                          startTime := some (some now) }).2
            (none, s)

/-- The closure state captured by the auto-start `setTimeout` that
`POST /api/matches/:id/join` schedules when the AI player is in the
match (server/routes.ts 1558-1586): the match id, the match row read
at join time (for `gameId`/`entryAmount`), and the player list read at
join time. -/
structure AutoStartTimer where
  matchId : Nat
  gameId : Nat
  entryAmount : Money
  players : List PlayerMatch
  aiUserId : Nat
deriving DecidableEq, Repr

/-- The body of the join-time auto-start timer (server/routes.ts
1559-1586): unconditionally marks the match `in_progress`, then for
every captured player deducts the entry fee (the result of
`updateWalletBalance` is not checked) and records a completed
`game_entry` transaction. The nested auto-complete timer it schedules
afterwards is a separate deferred action and is not part of this body's
storage effects. -/
def autoStartBody (s : Storage) (t : AutoStartTimer) (now : ℤ) : Storage :=
  let s := (updateGameMatch s t.matchId
              { status := some "in_progress",
                startTime := some (some now) }).2
  t.players.foldl (fun acc player =>
    let acc := (updateWalletBalance acc player.userId (-t.entryAmount)).2
    (createTransaction acc player.userId (-t.entryAmount)
       "game_entry" "completed" 0).2) s

/-- Model of `POST /api/matches/:id/join` (server/routes.ts 1498-1653): guard
match waiting, no duplicate join, minimum ₹200 wallet floor and the
entry amount; add the player (no money moves); then, if the AI player
is among the players and there are at least two, schedule the
auto-start timer (returned as the captured closure value). -/
def joinMatch (s : Storage) (matchId userId : Nat) :
    Option Failure × Storage × Option AutoStartTimer :=
  match getGameMatch s matchId with
  | none => (some ⟨404, "Match not found"⟩, s, none)
  | some m =>
    if m.status ≠ "waiting" then
      (some ⟨400, "Match is no longer accepting players"⟩, s, none)
    else if (getMatchPlayers s matchId).any (fun p => p.userId = userId) then
      (some ⟨400, "Already joined this match"⟩, s, none)
    else
      match getWallet s userId with
      | none => (some ⟨404, "Wallet not found"⟩, s, none)
      | some wallet =>
        if wallet.balance < 200 then
          (some ⟨400, "You need a minimum wallet balance of 200 to play games"⟩,
           s, none)
        else if wallet.balance < m.entryAmount then
          (some ⟨400, "Insufficient funds"⟩, s, none)
        else
          let s := (addPlayerToMatch s matchId userId "joined").2
          let players := getMatchPlayers s matchId
          match getUserByUsername s "AI_Player" with
          | none => (none, s, none)
          | some aiPlayer =>
            if (players.any (fun p => p.userId = aiPlayer.id))
                ∧ 2 ≤ players.length then
              (none, s, some ⟨matchId, m.gameId, m.entryAmount, players,
                              aiPlayer.id⟩)
            else (none, s, none)

/-- Model of `POST /api/matches/:id/complete` (server/routes.ts 1656-1730):
guard the match is `in_progress` and the winner is a player; compute
`prizePool = entryAmount * players.length`, the commission (with the
subscriber discount when the winner's `subscriptionExpiryDate` lies in
the future), and `winnerPrize = prizePool - commission`; mark the match
completed, set player statuses to won/lost, credit the winner and
record one completed `game_win` transaction carrying the commission. -/
def completeMatch (s : Storage) (matchId winnerId : Nat) (now : ℤ) :
    Option Failure × Storage :=
  match getGameMatch s matchId with
  | none => (some ⟨404, "Match not found"⟩, s)
  | some m =>
    if m.status ≠ "in_progress" then
      (some ⟨400, "Match is not in progress"⟩, s)
    else
      match getGame s m.gameId with
      | none => (some ⟨404, "Game not found"⟩, s)
      | some game =>
        let players := getMatchPlayers s matchId
        if ¬ players.any (fun p => p.userId = winnerId) then
          (some ⟨400, "Winner is not a player in this match"⟩, s)
        else
          let entryAmount := m.entryAmount
          let totalPrize := entryAmount * players.length
          let commissionPercentage := game.commissionPercentage
          let winnerUser := getUser s winnerId
          let hasSubscription :=
            match winnerUser with
            | some u => match u.subscriptionExpiryDate with
                        | some expiry => decide (now < expiry)
                        | none => false
            | none => false
          let commission :=
            calculateCommission totalPrize commissionPercentage hasSubscription
          let winnerPrize := totalPrize - commission
          let s := (updateGameMatch s matchId
                      { status := some "completed",
                        endTime := some (some now),
                        winnerId := some (some winnerId) }).2
          let s := players.foldl (fun acc player =>
                     (updatePlayerMatchStatus acc player.id
                        (if player.userId = winnerId then "won" else "lost")).2) s
          let s := (updateWalletBalance s winnerId winnerPrize).2
          let s := (createTransaction s winnerId winnerPrize
                      "game_win" "completed" commission).2
          (none, s)

/-- Model of `MemStorage.createUser` (only the modelled fields). -/
def createUser (s : Storage) (username : String) : User × Storage :=
  let u : User :=
    { id := s.userIdCounter, username := username,
      hasSubscription := false, subscriptionExpiryDate := none }
  (u, { s with users := s.users ++ [u], userIdCounter := s.userIdCounter + 1 })

/-- Model of `MemStorage.createWallet`. -/
def createWallet (s : Storage) (userId : Nat) (balance : Money) :
    Wallet × Storage :=
  let w : Wallet :=
    { id := s.walletIdCounter, userId := userId, balance := balance }
  (w, { s with
        wallets := s.wallets ++ [w],
        walletIdCounter := s.walletIdCounter + 1 })

/-- User registration (server/auth.ts, no referral code): create the
user, then create their wallet with balance `"0"`. -/
def registerUser (s : Storage) (username : String) : User × Storage :=
  let (u, s) := createUser s username
  let s := (createWallet s u.id 0).2
  (u, s)

/-- Model of `POST /api/wallet/deposit` (server/routes.ts 1788-1840): amounts
below 100 are rejected; otherwise a `pending` deposit transaction is
created (no money moves yet). -/
def depositRequest (s : Storage) (userId : Nat) (amount : Money) :
    Option Failure × Storage :=
  if amount < 100 then
    (some ⟨400, "Minimum deposit amount is 100"⟩, s)
  else
    (none, (createTransaction s userId amount "deposit" "pending" 0).2)

/-- Model of `POST /api/wallet/approve-deposit/:transactionId` (server/routes.ts
1843-1889, admin only): find the pending deposit, credit the
depositor's wallet, and record a new completed deposit transaction. -/
def approveDeposit (s : Storage) (transactionId : Nat) :
    Option Failure × Storage :=
  match s.transactions.find? (fun t =>
      t.id = transactionId ∧ t.type = "deposit" ∧ t.status = "pending") with
  | none => (some ⟨404, "Pending deposit transaction not found"⟩, s)
  | some t =>
    match updateWalletBalance s t.userId t.amount with
    | (none, s) => (some ⟨500, "Error updating wallet"⟩, s)
    | (some _, s) =>
      (none, (createTransaction s t.userId t.amount "deposit" "completed" 0).2)

/-- The closure state of the AI-join `setTimeout` scheduled by
`POST /api/matches` (server/routes.ts 1395-1406). -/
structure AiJoinTimer where
  matchId : Nat
  aiUserId : Nat
deriving DecidableEq, Repr

/-- Body of the AI-join timer: add the AI player to the match. -/
def aiJoinBody (s : Storage) (t : AiJoinTimer) : Storage :=
  (addPlayerToMatch s t.matchId t.aiUserId "joined").2

/-- Model of `MemStorage.createGameMatch`. -/
def createGameMatch (s : Storage) (gameId : Nat) (entryAmount : Money)
    (status : String) : GameMatch × Storage :=
  let m : GameMatch :=
    { id := s.gameMatchIdCounter, gameId := gameId, entryAmount := entryAmount,
      status := status, winnerId := none, startTime := none, endTime := none }
  (m, { s with
        gameMatches := s.gameMatches ++ [m],
        gameMatchIdCounter := s.gameMatchIdCounter + 1 })

/-- Model of `POST /api/matches` (server/routes.ts 1302-1412): validate the
entry amount against the game's range and the creator's balance
(minimum floor 200 and at least the entry amount); create the match in
`waiting` with the creator joined; ensure the AI player account and its
10000-balance wallet exist; and schedule the AI-join timer. -/
def createMatchHandler (s : Storage) (userId gameId : Nat)
    (entryAmount : Money) :
    Option Failure × Storage × Option AiJoinTimer :=
  match getGame s gameId with
  | none => (some ⟨404, "Game not found"⟩, s, none)
  | some game =>
    if entryAmount < game.minEntry ∨ game.maxEntry < entryAmount then
      (some ⟨400, "Entry amount must be between min and max"⟩, s, none)
    else
      match getWallet s userId with
      | none => (some ⟨404, "Wallet not found"⟩, s, none)
      | some wallet =>
        if wallet.balance < 200 then
          (some ⟨400, "You need a minimum wallet balance of 200 to play games"⟩,
           s, none)
        else if wallet.balance < entryAmount then
          (some ⟨400, "Insufficient funds"⟩, s, none)
        else
          let (m, s) := createGameMatch s gameId entryAmount "waiting"
          let s := (addPlayerToMatch s m.id userId "joined").2
          match getUserByUsername s "AI_Player" with
          | some aiUser => (none, s, some ⟨m.id, aiUser.id⟩)
          | none =>
            let (aiUser, s) := createUser s "AI_Player"
            let s := (createWallet s aiUser.id 10000).2
            (none, s, some ⟨m.id, aiUser.id⟩)

/-- Model of `MemStorage.addSubscription` (server/storage.ts 188-213): set the
subscription flag and extend or reset the expiry (day granularity). -/
def addSubscription (s : Storage) (userId : Nat) (durationDays : Nat)
    (now : ℤ) : Option User × Storage :=
  match getUser s userId with
  | none => (none, s)
  | some user =>
    let expiryDate : ℤ :=
      match user.subscriptionExpiryDate with
      | some e => if user.hasSubscription ∧ now < e then e + durationDays
                  else now + durationDays
      | none => now + durationDays
    let updated := { user with hasSubscription := true,
                               subscriptionExpiryDate := some expiryDate }
    (some updated,
      { s with users := s.users.map (fun x => if x.id = userId then updated else x) })

/-- Model of `MemStorage.createSubscriptionRewards`: assign consecutive ids and
insert each reward. -/
def createSubscriptionRewards (s : Storage)
    (rewards : List (Nat × Nat × Money × Nat × String)) : Storage :=
  rewards.foldl (fun acc r =>
    let (subscriptionId, userId, amount, day, status) := r
    let reward : SubscriptionReward :=
      { id := acc.subscriptionRewardIdCounter, subscriptionId := subscriptionId,
        userId := userId, amount := amount, day := day, status := status,
        paidAt := none }
    { acc with
      subscriptionRewards := acc.subscriptionRewards ++ [reward],
      subscriptionRewardIdCounter := acc.subscriptionRewardIdCounter + 1 }) s

/-- Model of `MemStorage.createGameSubscription` (server/storage.ts 482-513):
insert the subscription row, then generate one reward row per day with
`amount = (rewardAmount / duration).toFixed(2)` and status pending. -/
def createGameSubscription (s : Storage) (userId : Nat) (name : String)
    (amount rewardAmount : Money) (duration : Nat)
    (startDate endDate : ℤ) (status : String) : Subscription × Storage :=
  let sub : Subscription :=
    { id := s.subscriptionIdCounter, userId := userId, name := name,
      amount := amount, rewardAmount := rewardAmount, duration := duration,
      startDate := startDate, endDate := endDate, status := status }
  let s := { s with
             subscriptions := s.subscriptions ++ [sub],
             subscriptionIdCounter := s.subscriptionIdCounter + 1 }
  let dailyRewardAmount := round2 (rewardAmount / duration)
  let rewards := (List.range duration).map (fun i =>
    (sub.id, userId, dailyRewardAmount, i + 1, "pending"))
  (sub, createSubscriptionRewards s rewards)

/-- Model of `POST /api/subscriptions` (server/routes.ts 1987-2117): validate
the inputs and balance, deduct the price (result unchecked), record a
completed `subscription_purchase` transaction, create the subscription
(which itself generates `duration` reward rows), flag the user, and
then generate a second batch of `duration` reward rows with the
tier-based daily amount. -/
def purchaseSubscription (s : Storage) (userId : Nat) (name : String)
    (amount rewardAmount : Money) (duration : Nat) (now : ℤ) :
    Option Failure × Storage :=
  if amount ≤ 0 then (some ⟨400, "Invalid subscription amount"⟩, s)
  else if rewardAmount ≤ 0 then (some ⟨400, "Invalid reward amount"⟩, s)
  else if duration = 0 then (some ⟨400, "Invalid subscription duration"⟩, s)
  else
    match getWallet s userId with
    | none => (some ⟨404, "Wallet not found"⟩, s)
    | some wallet =>
      if wallet.balance < amount then (some ⟨400, "Insufficient funds"⟩, s)
      else
        let s := (updateWalletBalance s userId (-amount)).2
        let s := (createTransaction s userId (-amount)
                    "subscription_purchase" "completed" 0).2
        let startDate := now
        let endDate := now + duration
        let (sub, s) := createGameSubscription s userId name amount
                          rewardAmount duration startDate endDate "active"
        let s := (addSubscription s userId duration now).2
        let dailyRewardAmount : Money :=
          if amount = 2000 then 1714
          else if amount = 10000 then 11428
          else 857
        let rewards := (List.range duration).map (fun i =>
          (sub.id, userId, dailyRewardAmount, i + 1, "pending"))
        (none, createSubscriptionRewards s rewards)

/-- The filter body of `MemStorage.getPendingRewardsByDate`
(server/storage.ts 578-592): look up the parent subscription (absent
parent excludes the reward), then require status pending and
`startDate + (day - 1) = date` at day granularity. -/
def pendingOn (subs : List Subscription) (date : ℤ)
    (reward : SubscriptionReward) : Bool :=
  match subs.find? (fun sub => sub.id = reward.subscriptionId) with
  | none => false
  | some sub =>
    reward.status = "pending"
      ∧ sub.startDate + ((reward.day : ℤ) - 1) = date

/-- Model of `MemStorage.getPendingRewardsByDate` (server/storage.ts 571-593). -/
def getPendingRewardsByDate (s : Storage) (date : ℤ) :
    List SubscriptionReward :=
  s.subscriptionRewards.filter (pendingOn s.subscriptions date)

/-- Model of `MemStorage.updateRewardStatus` (server/storage.ts 595-607). -/
def updateRewardStatus (s : Storage) (id : Nat) (status : String)
    (paidAt : Option ℤ) (now : ℤ) : Option SubscriptionReward × Storage :=
  match s.subscriptionRewards.find? (fun r => r.id = id) with
  | none => (none, s)
  | some r =>
    let upd : SubscriptionReward → SubscriptionReward := fun x =>
      { x with status := status,
               paidAt := match paidAt with
                         | some p => some p
                         | none => if status = "paid" then some now else x.paidAt }
    (some (upd r),
      { s with subscriptionRewards :=
          s.subscriptionRewards.map (fun x => if x.id = id then upd x else x) })

/-- The per-reward body of `POST /api/admin/process-subscription-rewards`
(server/routes.ts 2139-2158): credit the wallet (result unchecked),
record a completed `subscription_reward` transaction, mark the reward
paid. -/
def processRewardsLoop (rewards : List SubscriptionReward) (now : ℤ)
    (s : Storage) : Storage :=
  match rewards with
  | [] => s
  | reward :: rest =>
    let s := (updateWalletBalance s reward.userId reward.amount).2
    let s := (createTransaction s reward.userId reward.amount
                "subscription_reward" "completed" 0).2
    let s := (updateRewardStatus s reward.id "paid" none now).2
    processRewardsLoop rest now s

/-- Model of `POST /api/admin/process-subscription-rewards` (server/routes.ts
2120-2168): select the pending rewards due on the date; if none,
return processed=0 without touching the state; otherwise process each
and report the count. -/
def processPendingRewardsForDate (s : Storage) (date now : ℤ) :
    Nat × Storage :=
  let pendingRewards := getPendingRewardsByDate s date
  if pendingRewards.isEmpty then (0, s)
  else (pendingRewards.length, processRewardsLoop pendingRewards now s)

/-- A chat message (socket handler, server/routes.ts 2530-2558). The
generated `randomUUID` id and wall-clock timestamp carry no logic for
the history bound and are not modelled. -/
structure ChatMessage where
  sender : String
  senderName : String
  content : String
  roomId : String
deriving DecidableEq, Repr

/-- The socket layer's `messageHistory` map: room key to ordered
message list. -/
structure ChatState where
  messageHistory : List (String × List ChatMessage)
deriving DecidableEq, Repr

/-- Model of `messageHistory.get(roomId)`. -/
def historyFor (st : ChatState) (roomId : String) :
    Option (List ChatMessage) :=
  (st.messageHistory.find? (fun e => e.1 = roomId)).map (fun e => e.2)

/-- Model of `messageHistory.set(roomId, h)`: replace when present, else insert. -/
def setHistory (st : ChatState) (roomId : String) (h : List ChatMessage) :
    ChatState :=
  if (st.messageHistory.find? (fun e => e.1 = roomId)).isSome then
    ⟨st.messageHistory.map (fun e => if e.1 = roomId then (roomId, h) else e)⟩
  else ⟨st.messageHistory ++ [(roomId, h)]⟩

/-- The `sendMessage` socket handler (server/routes.ts 2530-2558):
ignore empty content or room; if the room has history, shift the
oldest entry once the length reaches 100, then push; otherwise start
the history with the single message. -/
def sendMessage (st : ChatState) (m : ChatMessage) : ChatState :=
  if m.content = "" ∨ m.roomId = "" then st
  else
    match historyFor st m.roomId with
    | some history =>
      let history := if 100 ≤ history.length then history.drop 1 else history
      setHistory st m.roomId (history ++ [m])
    | none => setHistory st m.roomId [m]

/-- Behaviour of `updateWalletBalance` when no wallet exists for the user. -/
theorem updateWalletBalance_noWallet (s : Storage) (userId : Nat) (amount : Money)
    (h : getWallet s userId = none) :
    updateWalletBalance s userId amount = (none, s) := by
  simp [updateWalletBalance, h]

/-- Behaviour of `updateWalletBalance` when the resulting balance would be negative:
rejected, storage untouched. -/
theorem updateWalletBalance_reject (s : Storage) (userId : Nat) (amount : Money)
    (w : Wallet) (h : getWallet s userId = some w)
    (hneg : w.balance + amount < 0) :
    updateWalletBalance s userId amount = (none, s) := by
  simp [updateWalletBalance, h, hneg]

/-- Behaviour of `updateWalletBalance` on a sufficient balance: writes back
`balance + amount` under the wallet's id. -/
theorem updateWalletBalance_ok (s : Storage) (userId : Nat) (amount : Money)
    (w : Wallet) (h : getWallet s userId = some w)
    (hge : 0 ≤ w.balance + amount) :
    updateWalletBalance s userId amount =
      (some { w with balance := w.balance + amount },
       { s with wallets := s.wallets.map (fun x =>
          if x.id = w.id then { w with balance := w.balance + amount } else x) }) := by
  have hnot : ¬ (w.balance + amount < 0) := not_lt.2 hge
  simp [updateWalletBalance, h, hnot]

/-- C1 — `updateWalletBalance` keeps every balance non-negative: a
rejected call (result `none`) leaves the storage untouched; a call on
a wallet whose `balance + amount` would be negative is rejected; a
successful call writes back exactly `balance + amount`; and if all
balances were non-negative before the call they all are after it. -/
theorem updateWalletBalance_nonneg (s : Storage) (userId : Nat) (amount : Money)
    (hpos : ∀ w ∈ s.wallets, 0 ≤ w.balance) :
    (∀ w ∈ (updateWalletBalance s userId amount).2.wallets, 0 ≤ w.balance)
    ∧ ((updateWalletBalance s userId amount).1 = none →
        (updateWalletBalance s userId amount).2 = s)
    ∧ (∀ w, getWallet s userId = some w →
        (w.balance + amount < 0 →
          updateWalletBalance s userId amount = (none, s))
        ∧ (0 ≤ w.balance + amount →
          (updateWalletBalance s userId amount).1
            = some { w with balance := w.balance + amount })) := by
  cases hfind : getWallet s userId with
  | none =>
    rw [updateWalletBalance_noWallet s userId amount hfind]
    exact ⟨hpos, fun _ => rfl, fun w hw => by simp at hw⟩
  | some wallet =>
    by_cases hneg : wallet.balance + amount < 0
    · rw [updateWalletBalance_reject s userId amount wallet hfind hneg]
      refine ⟨hpos, fun _ => rfl, fun w hw => ?_⟩
      obtain rfl : wallet = w := by injection hw
      exact ⟨fun _ => rfl, fun hge => absurd hneg (not_lt.2 hge)⟩
    · have hge : 0 ≤ wallet.balance + amount := le_of_not_lt hneg
      rw [updateWalletBalance_ok s userId amount wallet hfind hge]
      refine ⟨?_, fun hnone => by simp at hnone, fun w hw => ?_⟩
      · intro w hw
        simp only [List.mem_map] at hw
        obtain ⟨x, hx, hxw⟩ := hw
        by_cases hid : x.id = wallet.id
        · rw [← hxw]; simp only [hid, if_true]; exact hge
        · rw [← hxw]; simp only [hid, if_false]; exact hpos x hx
      · obtain rfl : wallet = w := by injection hw
        exact ⟨fun hlt => absurd hlt hneg, fun _ => rfl⟩

/-- Witness for C1 at a concrete one-wallet storage. -/
theorem updateWalletBalance_nonneg_witness :
    (∀ w ∈ (updateWalletBalance
        ⟨[], [⟨1, 1, 50⟩], [], [], [], [], [], [], 2, 2, 1, 1, 1, 1, 1⟩
        1 (-60)).2.wallets, 0 ≤ w.balance)
    ∧ ((updateWalletBalance
        ⟨[], [⟨1, 1, 50⟩], [], [], [], [], [], [], 2, 2, 1, 1, 1, 1, 1⟩
        1 (-60)).1 = none →
        (updateWalletBalance
        ⟨[], [⟨1, 1, 50⟩], [], [], [], [], [], [], 2, 2, 1, 1, 1, 1, 1⟩
        1 (-60)).2
          = ⟨[], [⟨1, 1, 50⟩], [], [], [], [], [], [], 2, 2, 1, 1, 1, 1, 1⟩) := by
  have h := updateWalletBalance_nonneg
    ⟨[], [⟨1, 1, 50⟩], [], [], [], [], [], [], 2, 2, 1, 1, 1, 1, 1⟩
    1 (-60) (by decide)
  exact ⟨h.1, h.2.1⟩

/-! ## Concrete trace fixtures

Traces built exclusively from the exposed operations, starting from a
fresh storage whose game catalog holds the first seeded game
(`seedGames`, server/storage.ts 610-621: Ludo Royal, entry range
200-1000, commission percentage 10). -/

/-- First entry of `seedGames`. -/
def ludoRoyal : Game :=
  { id := 1, name := "Ludo Royal", minEntry := 200, maxEntry := 1000,
    commissionPercentage := 10, isActive := true }

/-- Fresh storage after seeding. -/
def initialStorage : Storage :=
  { users := [], wallets := [], transactions := [], games := [ludoRoyal],
    gameMatches := [], playerMatches := [], subscriptions := [],
    subscriptionRewards := [],
    userIdCounter := 1, walletIdCounter := 1, transactionIdCounter := 1,
    gameMatchIdCounter := 1, playerMatchIdCounter := 1,
    subscriptionIdCounter := 1, subscriptionRewardIdCounter := 1 }

/-- Register two users and fund them by deposit + admin approval:
alice (user 1) with `a`, bob (user 2) with `b`. -/
def fundedTwoUsers (a b : Money) : Storage :=
  let s := (registerUser initialStorage "alice").2
  let s := (registerUser s "bob").2
  let s := (depositRequest s 1 a).2
  let s := (approveDeposit s 1).2
  let s := (depositRequest s 2 b).2
  let s := (approveDeposit s 3).2
  s

/-- alice creates a Ludo match at entry 200 (this spawns the AI player,
user 3, with a 10000 wallet), the AI-join timer fires, and bob joins
(which schedules the auto-start timer because the AI is present). -/
def matchWithAiReady (a b : Money) : Storage :=
  let s := fundedTwoUsers a b
  let s := (createMatchHandler s 1 1 200).2.1
  let s := aiJoinBody s ⟨1, 3⟩
  (joinMatch s 1 2).2.1

/-- The auto-start timer captured by bob's join in `matchWithAiReady`:
match 1 of game 1 at entry 200, with the three join rows read at join
time. -/
def capturedAutoStart : AutoStartTimer :=
  { matchId := 1, gameId := 1, entryAmount := 200,
    players := [⟨1, 1, 1, "joined"⟩, ⟨2, 1, 3, "joined"⟩, ⟨3, 1, 2, "joined"⟩],
    aiUserId := 3 }

/-- C2 trace: alice funded with 500, bob with 400; manual start by
alice, then the auto-start timer body fires. -/
def c2AfterManualStart : Storage := (startMatch (matchWithAiReady 500 400) 1 1 0).2

/-- C2 final state: the auto-start timer body runs after the manual
start already deducted the fees. -/
def c2Final : Storage := autoStartBody c2AfterManualStart capturedAutoStart 0

/-- Sum of a user's completed transaction amounts (the reconciliation
quantity of §3 of the spec). -/
def completedSum (s : Storage) (userId : Nat) : Money :=
  ((s.transactions.filter (fun t => t.userId = userId
      ∧ t.status = "completed")).map (fun t => t.amount)).sum

/-- C3 trace: alice funded with 300 only; manual start leaves her at
100, and the auto-start timer body then fires on the depleted wallet. -/
def c3Final : Storage :=
  autoStartBody (startMatch (matchWithAiReady 300 400) 1 1 0).2
    capturedAutoStart 0

/-- C4 trace: alice 400, bob 200, carol 200; bob and carol drain their
wallets by starting match 1, then alice starts match 2 whose player
list is [alice, bob]. -/
def c4Pre : Storage :=
  let s := (registerUser initialStorage "alice").2
  let s := (registerUser s "bob").2
  let s := (registerUser s "carol").2
  let s := (depositRequest s 1 400).2
  let s := (approveDeposit s 1).2
  let s := (depositRequest s 2 200).2
  let s := (approveDeposit s 3).2
  let s := (depositRequest s 3 200).2
  let s := (approveDeposit s 5).2
  let s := (createMatchHandler s 2 1 200).2.1
  let s := (joinMatch s 1 3).2.1
  let s := (createMatchHandler s 1 1 200).2.1
  let s := (joinMatch s 2 2).2.1
  (startMatch s 1 2 0).2

/-- C2 — refuted by the code: the auto-start timer body scheduled at
join time has no `waiting`-status guard, so running it after a
successful manual start debits every captured player a second time.
In the concrete trace, alice (funded 500) pays the 200 entry fee twice
(balance 100) and ends up with two completed `game_entry`
transactions for the same match. -/
theorem autoStart_after_manual_start_double_deducts :
    (joinMatch (aiJoinBody (createMatchHandler (fundedTwoUsers 500 400) 1 1
        200).2.1 ⟨1, 3⟩) 1 2).2.2 = some capturedAutoStart
    ∧ (startMatch (matchWithAiReady 500 400) 1 1 0).1 = none
    ∧ getWallet c2AfterManualStart 1 = some ⟨1, 1, 300⟩
    ∧ getWallet c2Final 1 = some ⟨1, 1, 100⟩
    ∧ (c2Final.transactions.filter (fun t => t.userId = 1
        ∧ t.type = "game_entry")).length = 2 := by
  refine ⟨?_, ?_, ?_, ?_, ?_⟩ <;> with_unfolding_all rfl

/-- C3 — refuted by the code: the auto-start timer body records a
completed `game_entry` transaction even when `updateWalletBalance`
rejected the deduction. In the concrete trace alice's wallet (created
with balance 0, funded by a 300 deposit) holds 100, while her
completed transactions sum to -100. -/
theorem reconciliation_violated_by_auto_start :
    getWallet (registerUser initialStorage "alice").2 1 = some ⟨1, 1, 0⟩
    ∧ getWallet c3Final 1 = some ⟨1, 1, 100⟩
    ∧ completedSum c3Final 1 = -100
    ∧ completedSum c3Final 1 ≠ 100 := by
  have hsum : completedSum c3Final 1 = -100 := by with_unfolding_all rfl
  refine ⟨?_, ?_, hsum, ?_⟩
  · with_unfolding_all rfl
  · with_unfolding_all rfl
  · rw [hsum]; norm_num

/-- C4 counterexample — `startMatch` is not atomic: starting match 2
fails on bob's empty wallet, yet alice (earlier in the loop) has
already been debited 200 and her `game_entry` transaction recorded,
while the match stays `waiting`. -/
theorem startMatch_midloop_leaves_partial_debits :
    (startMatch c4Pre 2 1 0).1
        = some ⟨400, "Player does not have enough balance"⟩
    ∧ getWallet c4Pre 1 = some ⟨1, 1, 400⟩
    ∧ getWallet (startMatch c4Pre 2 1 0).2 1 = some ⟨1, 1, 200⟩
    ∧ ((startMatch c4Pre 2 1 0).2.transactions.filter
        (fun t => t.type = "game_entry" ∧ t.userId = 1)).length = 1
    ∧ (getGameMatch (startMatch c4Pre 2 1 0).2 2).map (fun m => m.status)
        = some "waiting" := by
  refine ⟨?_, ?_, ?_, ?_, ?_⟩ <;> with_unfolding_all rfl

/-- C4 amended — the failures detected before the deduction loop
(match missing, match not `waiting`, fewer than 2 players, requester
not a participant) leave the storage completely unchanged: no wallet
is debited and no transaction is created. (A failure *inside* the
loop can leave earlier players debited, as the counterexample shows.) -/
theorem startMatch_preloop_failure_no_side_effects
    (s : Storage) (matchId userId : Nat) (now : ℤ) :
    (getGameMatch s matchId = none →
      startMatch s matchId userId now = (some ⟨404, "Match not found"⟩, s))
    ∧ (∀ m, getGameMatch s matchId = some m → m.status ≠ "waiting" →
      startMatch s matchId userId now
        = (some ⟨400, "Match is not in waiting status"⟩, s))
    ∧ (∀ m, getGameMatch s matchId = some m → m.status = "waiting" →
      (getMatchPlayers s matchId).length < 2 →
      startMatch s matchId userId now
        = (some ⟨400, "Need at least 2 players to start the match"⟩, s))
    ∧ (∀ m, getGameMatch s matchId = some m → m.status = "waiting" →
      ¬ (getMatchPlayers s matchId).length < 2 →
      ¬ (getMatchPlayers s matchId).any (fun p => p.userId = userId) →
      startMatch s matchId userId now
        = (some ⟨403, "You are not part of this match"⟩, s)) := by
  refine ⟨?_, ?_, ?_, ?_⟩
  · intro h; simp [startMatch, h]
  · intro m hm hstat; simp [startMatch, hm, hstat]
  · intro m hm hstat hlen
    simp [startMatch, hm, hstat, hlen]
  · intro m hm hstat hlen hmem
    simp [startMatch, hm, hstat, hlen, hmem]

/-- Witness for the amended C4 statement: starting a non-existent
match in the fresh storage fails with 404 and changes nothing. -/
theorem startMatch_preloop_failure_no_side_effects_witness :
    startMatch initialStorage 1 1 0
      = (some ⟨404, "Match not found"⟩, initialStorage) :=
  (startMatch_preloop_failure_no_side_effects initialStorage 1 1 0).1
    (by with_unfolding_all rfl)

/-- C5 — `completeMatch` on the in-progress 3-player match at entry
200 and commission percentage 10 (winner alice, no subscription):
prize pool 600, commission 60, payout 540; alice's wallet goes from
300 to exactly 840; exactly one `game_win` transaction is recorded,
of amount 540 carrying commissionAmount 60; the match becomes
`completed` with winner alice and the player rows become won/lost. -/
theorem completeMatch_pays_winner_exactly :
    (completeMatch c2AfterManualStart 1 1 7).1 = none
    ∧ getWallet c2AfterManualStart 1 = some ⟨1, 1, 300⟩
    ∧ getWallet (completeMatch c2AfterManualStart 1 1 7).2 1
        = some ⟨1, 1, 840⟩
    ∧ ((completeMatch c2AfterManualStart 1 1 7).2.transactions.filter
        (fun t => t.type = "game_win"))
        = [⟨8, 1, 540, "game_win", "completed", 60⟩]
    ∧ (getGameMatch (completeMatch c2AfterManualStart 1 1 7).2 1).map
        (fun m => (m.status, m.winnerId, m.endTime))
        = some ("completed", some 1, some 7)
    ∧ getMatchPlayers (completeMatch c2AfterManualStart 1 1 7).2 1
        = [⟨1, 1, 1, "won"⟩, ⟨2, 1, 3, "lost"⟩, ⟨3, 1, 2, "lost"⟩] := by
  refine ⟨?_, ?_, ?_, ?_, ?_, ?_⟩ <;> with_unfolding_all rfl

/-- C6 — completing a match that is not `in_progress` is rejected
with status 400 and leaves the storage exactly unchanged: no wallet,
transaction, match or player-match mutation. -/
theorem completeMatch_rejects_non_in_progress
    (s : Storage) (matchId winnerId : Nat) (now : ℤ) (m : GameMatch)
    (hm : getGameMatch s matchId = some m)
    (hstat : m.status ≠ "in_progress") :
    completeMatch s matchId winnerId now
      = (some ⟨400, "Match is not in progress"⟩, s) := by
  simp [completeMatch, hm, hstat]

/-- Witness for C6: the second `complete` call on the match completed
in the C5 scenario is rejected and has zero side effects. -/
theorem completeMatch_rejects_non_in_progress_witness :
    completeMatch (completeMatch c2AfterManualStart 1 1 7).2 1 1 8
      = (some ⟨400, "Match is not in progress"⟩,
         (completeMatch c2AfterManualStart 1 1 7).2) :=
  completeMatch_rejects_non_in_progress
    (completeMatch c2AfterManualStart 1 1 7).2 1 1 8
    ⟨1, 1, 200, "completed", some 1, some 0, some 7⟩
    (by with_unfolding_all rfl) (by decide)

/-- C7 counterexample — the server-side game-prize commission function
(`calculateCommission`, the one match completion uses) returns the raw
unrounded product: at prizePool 1, percentage 1/10, no discount, the
raw commission 1/1000 differs from its 2-decimal half-up rounding 0,
and the function returns the unrounded 1/1000. -/
theorem calculateCommission_returns_unrounded :
    calculateCommission 1 (1/10) false = 1/1000
    ∧ round2 ((1 : ℚ) * (1/10) / 100) = 0
    ∧ calculateCommission 1 (1/10) false ≠ round2 ((1 : ℚ) * (1/10) / 100) := by
  have h1 : calculateCommission 1 (1/10) false = 1/1000 := by
    norm_num [calculateCommission]
  have h2 : round2 ((1 : ℚ) * (1/10) / 100) = 0 := by
    with_unfolding_all rfl
  refine ⟨h1, h2, ?_⟩
  rw [h1, h2]; norm_num

/-- C7 amended — both game-prize commission functions return 0 on
non-positive inputs and apply the 25% subscriber discount, but only
the client-side `calculateGameCommission` rounds: it equals the
2-decimal half-up rounding of the exact value that the server-side
`calculateCommission` returns unrounded (so it lands on a whole number
of cents within half a cent of the exact commission). -/
theorem commission_rounding_spec (prizePool pct : ℚ) (disc : Bool) :
    ((prizePool ≤ 0 ∨ pct ≤ 0) →
      calculateCommission prizePool pct disc = 0
      ∧ calculateGameCommission prizePool pct disc = 0)
    ∧ (0 < prizePool → 0 < pct →
      calculateCommission prizePool pct disc
          = prizePool * (if disc then pct * (3/4) else pct) / 100
      ∧ calculateGameCommission prizePool pct disc
          = round2 (calculateCommission prizePool pct disc)
      ∧ |calculateGameCommission prizePool pct disc
          - calculateCommission prizePool pct disc| ≤ 1/200
      ∧ ∃ k : ℤ, calculateGameCommission prizePool pct disc * 100 = k) := by
  constructor
  · intro h
    simp [calculateCommission, calculateGameCommission, h, round2, jsRound]
  · intro hp hq
    have hcond : ¬ (prizePool ≤ 0 ∨ pct ≤ 0) := by
      rintro (h | h) <;> linarith
    refine ⟨by simp [calculateCommission, hcond], ?_, ?_, ?_⟩
    · simp [calculateCommission, calculateGameCommission, hcond]
    · have hgc : calculateGameCommission prizePool pct disc
          = round2 (calculateCommission prizePool pct disc) := by
        simp [calculateCommission, calculateGameCommission, hcond]
      rw [hgc]
      set y := calculateCommission prizePool pct disc with hy
      have h1 : ((jsRound (y * 100) : ℤ) : ℚ) ≤ y * 100 + 1/2 := by
        simpa [jsRound] using Int.floor_le (y * 100 + 1/2)
      have h2 : y * 100 + 1/2 - 1 < ((jsRound (y * 100) : ℤ) : ℚ) := by
        rw [jsRound]
        exact Int.sub_one_lt_floor (y * 100 + 1/2)
      rw [round2, abs_le]
      constructor <;> [linarith; linarith]
    · refine ⟨jsRound (calculateCommission prizePool pct disc * 100), ?_⟩
      have hgc : calculateGameCommission prizePool pct disc
          = round2 (calculateCommission prizePool pct disc) := by
        simp [calculateCommission, calculateGameCommission, hcond]
      rw [hgc, round2]
      field_simp

/-- Witness for the amended C7 statement at pool 600, percentage 10,
no discount: commission exactly 60 from both functions. -/
theorem commission_rounding_spec_witness :
    calculateCommission 600 10 false = 600 * (10 : ℚ) / 100
    ∧ calculateGameCommission 600 10 false
        = round2 (calculateCommission 600 10 false) := by
  have h := (commission_rounding_spec 600 10 false).2 (by norm_num) (by norm_num)
  exact ⟨by simpa using h.1, h.2.1⟩

/-- C8 trace: alice funded with 1000 buys the Basic plan
(amount 1000, rewardAmount 6000, duration 7). -/
def c8Final : Storage :=
  (purchaseSubscription (fundedTwoUsers 1000 400) 1 "Basic" 1000 6000 7 0).2

/-- The storage reached by `fundedTwoUsers 1000 400`, written out. -/
def c8Funded : Storage :=
  { users := [⟨1, "alice", false, none⟩, ⟨2, "bob", false, none⟩],
    wallets := [⟨1, 1, 1000⟩, ⟨2, 2, 400⟩],
    transactions :=
      [⟨1, 1, 1000, "deposit", "pending", 0⟩,
       ⟨2, 1, 1000, "deposit", "completed", 0⟩,
       ⟨3, 2, 400, "deposit", "pending", 0⟩,
       ⟨4, 2, 400, "deposit", "completed", 0⟩],
    games := [ludoRoyal],
    gameMatches := [], playerMatches := [],
    subscriptions := [], subscriptionRewards := [],
    userIdCounter := 3, walletIdCounter := 3, transactionIdCounter := 5,
    gameMatchIdCounter := 1, playerMatchIdCounter := 1,
    subscriptionIdCounter := 1, subscriptionRewardIdCounter := 1 }

/-- The storage reached by the C8 purchase, written out: note the two
batches of reward rows (ids 1-7 at 857.14 from the store, ids 8-14 at
857 from the route). -/
def c8FinalLit : Storage :=
  { users := [⟨1, "alice", true, some 7⟩, ⟨2, "bob", false, none⟩],
    wallets := [⟨1, 1, 0⟩, ⟨2, 2, 400⟩],
    transactions :=
      [⟨1, 1, 1000, "deposit", "pending", 0⟩,
       ⟨2, 1, 1000, "deposit", "completed", 0⟩,
       ⟨3, 2, 400, "deposit", "pending", 0⟩,
       ⟨4, 2, 400, "deposit", "completed", 0⟩,
       ⟨5, 1, -1000, "subscription_purchase", "completed", 0⟩],
    games := [ludoRoyal],
    gameMatches := [], playerMatches := [],
    subscriptions := [⟨1, 1, "Basic", 1000, 6000, 7, 0, 7, "active"⟩],
    subscriptionRewards :=
      [⟨1, 1, 1, 42857/50, 1, "pending", none⟩,
       ⟨2, 1, 1, 42857/50, 2, "pending", none⟩,
       ⟨3, 1, 1, 42857/50, 3, "pending", none⟩,
       ⟨4, 1, 1, 42857/50, 4, "pending", none⟩,
       ⟨5, 1, 1, 42857/50, 5, "pending", none⟩,
       ⟨6, 1, 1, 42857/50, 6, "pending", none⟩,
       ⟨7, 1, 1, 42857/50, 7, "pending", none⟩,
       ⟨8, 1, 1, 857, 1, "pending", none⟩,
       ⟨9, 1, 1, 857, 2, "pending", none⟩,
       ⟨10, 1, 1, 857, 3, "pending", none⟩,
       ⟨11, 1, 1, 857, 4, "pending", none⟩,
       ⟨12, 1, 1, 857, 5, "pending", none⟩,
       ⟨13, 1, 1, 857, 6, "pending", none⟩,
       ⟨14, 1, 1, 857, 7, "pending", none⟩],
    userIdCounter := 3, walletIdCounter := 3, transactionIdCounter := 6,
    gameMatchIdCounter := 1, playerMatchIdCounter := 1,
    subscriptionIdCounter := 2, subscriptionRewardIdCounter := 15 }

/-- Evaluation of the funding prefix of the C8 trace. -/
theorem fundedTwoUsers_c8_eval : fundedTwoUsers 1000 400 = c8Funded := by
  with_unfolding_all rfl

set_option maxRecDepth 3000 in
/-- Evaluation of the C8 purchase call on the funded storage. -/
theorem purchase_pair_eval :
    purchaseSubscription c8Funded 1 "Basic" 1000 6000 7 0
      = (none, c8FinalLit) := by
  with_unfolding_all rfl

/-- Evaluation of the C8 purchase (staged through `c8Funded` to keep
each definitional-reduction step shallow). -/
theorem c8Final_eval : c8Final = c8FinalLit := by
  unfold c8Final
  rw [fundedTwoUsers_c8_eval, purchase_pair_eval]

/-- C8 — refuted by the code: a successful purchase generates
2 × duration reward rows for the new subscription, not duration:
the store's `createGameSubscription` generates `duration` rows at
`toFixed(2)(rewardAmount / duration)` = 857.14 each, and the route
then generates another `duration` rows at the tier amount 857; the
per-row amount 857.14 also differs from the exact
`rewardAmount / duration` = 6000/7. -/
theorem purchase_creates_double_rewards :
    (purchaseSubscription (fundedTwoUsers 1000 400) 1 "Basic" 1000 6000 7 0).1
        = none
    ∧ (c8Final.subscriptionRewards.filter
        (fun r => r.subscriptionId = 1)).length = 14
    ∧ (c8Final.subscriptionRewards.filter
        (fun r => r.subscriptionId = 1 ∧ r.amount = 42857/50)).length = 7
    ∧ (c8Final.subscriptionRewards.filter
        (fun r => r.subscriptionId = 1 ∧ r.amount = 857)).length = 7
    ∧ (42857 / 50 : Money) ≠ 6000 / 7
    ∧ (14 : Nat) ≠ 7 := by
  refine ⟨?_, ?_, ?_, ?_, by norm_num, by norm_num⟩
  · rw [fundedTwoUsers_c8_eval, purchase_pair_eval]
  all_goals rw [c8Final_eval]; norm_num [c8FinalLit, List.filter]

/-- Effect of `updateRewardStatus(id, "paid")` on a reward row. -/
def paidify (r : SubscriptionReward) (now : ℤ) : SubscriptionReward :=
  { r with status := "paid", paidAt := some now }

/-- Frame property: `updateWalletBalance` touches only the wallets map. -/
theorem updateWalletBalance_frame (s : Storage) (userId : Nat) (amount : Money) :
    ((updateWalletBalance s userId amount).2.subscriptions = s.subscriptions)
    ∧ ((updateWalletBalance s userId amount).2.subscriptionRewards
        = s.subscriptionRewards)
    ∧ ((updateWalletBalance s userId amount).2.transactions = s.transactions) := by
  unfold updateWalletBalance
  cases getWallet s userId with
  | none => exact ⟨rfl, rfl, rfl⟩
  | some w =>
    by_cases h : w.balance + amount < 0
    · simp [h]
    · simp [h]

/-- Frame property: `createTransaction` appends one row and touches nothing else. -/
theorem createTransaction_frame (s : Storage) (userId : Nat) (amount : Money)
    (type status : String) (commissionAmount : Money) :
    ((createTransaction s userId amount type status commissionAmount).2.subscriptions
        = s.subscriptions)
    ∧ ((createTransaction s userId amount type status commissionAmount).2.subscriptionRewards
        = s.subscriptionRewards)
    ∧ ((createTransaction s userId amount type status commissionAmount).2.transactions
        = s.transactions
          ++ [⟨s.transactionIdCounter, userId, amount, type, status,
               commissionAmount⟩]) :=
  ⟨rfl, rfl, rfl⟩

/-- Frame property: `updateRewardStatus(id, "paid", none)` maps the row with that id
to its paid form and touches nothing else. -/
theorem updateRewardStatus_paid (s : Storage) (rid : Nat) (now : ℤ) :
    ((updateRewardStatus s rid "paid" none now).2.subscriptions = s.subscriptions)
    ∧ ((updateRewardStatus s rid "paid" none now).2.transactions = s.transactions)
    ∧ ((updateRewardStatus s rid "paid" none now).2.subscriptionRewards
        = s.subscriptionRewards.map (fun x =>
            if x.id = rid then paidify x now else x)) := by
  unfold updateRewardStatus
  cases hf : s.subscriptionRewards.find? (fun r => r.id = rid) with
  | none =>
    refine ⟨rfl, rfl, ?_⟩
    have hall : ∀ x ∈ s.subscriptionRewards, ¬ (x.id = rid) := by
      intro x hx
      have := List.find?_eq_none.mp hf x hx
      simpa using this
    have hmap : s.subscriptionRewards.map (fun x =>
        if x.id = rid then paidify x now else x)
        = s.subscriptionRewards.map (fun x => x) :=
      List.map_congr_left (fun x hx => by simp [hall x hx])
    simp [hmap]
  | some r =>
    refine ⟨rfl, rfl, ?_⟩
    apply List.map_congr_left
    intro x _
    by_cases h : x.id = rid <;> simp [h, paidify]

/-- Idempotence: `paidify` is idempotent and id-preserving. -/
theorem paidify_paidify (r : SubscriptionReward) (now : ℤ) :
    paidify (paidify r now) now = paidify r now ∧ (paidify r now).id = r.id :=
  ⟨rfl, rfl⟩

/-- Cumulative effect of the reward-processing loop: subscriptions
untouched; every reward whose id occurs in the processed list is
marked paid; exactly one completed `subscription_reward` transaction
is appended per processed reward. -/
theorem processRewardsLoop_state (rs : List SubscriptionReward) (now : ℤ)
    (s : Storage) :
    ((processRewardsLoop rs now s).subscriptions = s.subscriptions)
    ∧ ((processRewardsLoop rs now s).subscriptionRewards
        = s.subscriptionRewards.map (fun e =>
            if e.id ∈ rs.map (fun r => r.id) then paidify e now else e))
    ∧ ∃ added, (processRewardsLoop rs now s).transactions = s.transactions ++ added
        ∧ added.length = rs.length
        ∧ ∀ t ∈ added, t.type = "subscription_reward" ∧ t.status = "completed" := by
  induction rs generalizing s with
  | nil =>
    refine ⟨rfl, ?_, [], by simp [processRewardsLoop], rfl, by simp⟩
    simp [processRewardsLoop]
  | cons r rest ih =>
    have step :
        processRewardsLoop (r :: rest) now s
          = processRewardsLoop rest now
              ((updateRewardStatus
                ((createTransaction
                  ((updateWalletBalance s r.userId r.amount).2)
                  r.userId r.amount "subscription_reward" "completed" 0).2)
                r.id "paid" none now).2) := rfl
    set s1 := (updateWalletBalance s r.userId r.amount).2 with hs1
    set s2 := (createTransaction s1 r.userId r.amount
                "subscription_reward" "completed" 0).2 with hs2
    set s3 := (updateRewardStatus s2 r.id "paid" none now).2 with hs3
    have f1 := updateWalletBalance_frame s r.userId r.amount
    have f2 := createTransaction_frame s1 r.userId r.amount
                "subscription_reward" "completed" 0
    have f3 := updateRewardStatus_paid s2 r.id now
    have hsubs3 : s3.subscriptions = s.subscriptions := by
      rw [f3.1, f2.1, f1.1]
    have hrew3 : s3.subscriptionRewards
        = s.subscriptionRewards.map (fun x =>
            if x.id = r.id then paidify x now else x) := by
      rw [f3.2.2, f2.2.1, f1.2.1]
    have htx3 : s3.transactions
        = s.transactions
          ++ [⟨s1.transactionIdCounter, r.userId, r.amount,
               "subscription_reward", "completed", 0⟩] := by
      rw [f3.2.1, f2.2.2, f1.2.2]
    obtain ⟨ihsubs, ihrew, added, ihtx, ihlen, ihall⟩ := ih s3
    rw [step]
    refine ⟨by rw [ihsubs, hsubs3], ?_, ?_⟩
    · rw [ihrew, hrew3, List.map_map]
      apply List.map_congr_left
      intro e _
      by_cases h1 : e.id = r.id
      · by_cases h2 : e.id ∈ rest.map (fun x => x.id) <;>
          simp [Function.comp, h1, h2, paidify]
      · by_cases h2 : e.id ∈ rest.map (fun x => x.id) <;>
          simp [Function.comp, h1, h2, paidify]
    · refine ⟨⟨s1.transactionIdCounter, r.userId, r.amount,
               "subscription_reward", "completed", 0⟩ :: added, ?_, ?_, ?_⟩
      · rw [ihtx, htx3]; simp
      · simp [ihlen]
      · intro t ht
        rcases List.mem_cons.mp ht with h | h
        · rw [h]; exact ⟨rfl, rfl⟩
        · exact ihall t h

/-- A paid reward row never satisfies the pending filter. -/
theorem pendingOn_paidify (subs : List Subscription) (date : ℤ)
    (r : SubscriptionReward) (now : ℤ) :
    pendingOn subs date (paidify r now) = false := by
  unfold pendingOn paidify
  cases subs.find? (fun sub => sub.id = r.subscriptionId) with
  | none => rfl
  | some sub => simp

/-- A selected reward has status pending. -/
theorem pendingOn_status (subs : List Subscription) (date : ℤ)
    (r : SubscriptionReward) (h : pendingOn subs date r = true) :
    r.status = "pending" := by
  unfold pendingOn at h
  cases hf : subs.find? (fun sub => sub.id = r.subscriptionId) with
  | none => rw [hf] at h; cases h
  | some sub =>
    rw [hf] at h
    simpa using (of_decide_eq_true h).1

/-- After the loop has processed every reward due on a date, the
pending-rewards query for that date is empty. -/
theorem getPendingRewardsByDate_after_process (s : Storage) (date now : ℤ) :
    getPendingRewardsByDate
      (processRewardsLoop (getPendingRewardsByDate s date) now s) date = [] := by
  obtain ⟨hsubs, hrew, -⟩ :=
    processRewardsLoop_state (getPendingRewardsByDate s date) now s
  rw [getPendingRewardsByDate, hsubs, hrew, List.filter_eq_nil_iff]
  intro e' he'
  obtain ⟨e, he, rfl⟩ := List.mem_map.mp he'
  by_cases hid : e.id ∈ (getPendingRewardsByDate s date).map (fun r => r.id)
  · simp only [hid, if_true]
    simp [pendingOn_paidify]
  · simp only [hid, if_false]
    intro hpred
    have hmem : e ∈ getPendingRewardsByDate s date :=
      List.mem_filter.mpr ⟨he, hpred⟩
    exact hid (List.mem_map.mpr ⟨e, hmem, rfl⟩)

/-- C9 — reward processing is idempotent per reward: the second run
for the same date selects nothing and returns processed = 0 with the
state exactly unchanged; a single run appends exactly one completed
`subscription_reward` transaction per selected reward and every
selected reward had status pending (a paid reward is never
re-selected). -/
theorem processPendingRewards_idempotent (s : Storage) (date now now2 : ℤ) :
    (processPendingRewardsForDate
        (processPendingRewardsForDate s date now).2 date now2
      = (0, (processPendingRewardsForDate s date now).2))
    ∧ (∃ added, (processPendingRewardsForDate s date now).2.transactions
          = s.transactions ++ added
        ∧ added.length = (getPendingRewardsByDate s date).length
        ∧ ∀ t ∈ added, t.type = "subscription_reward" ∧ t.status = "completed")
    ∧ (∀ r ∈ getPendingRewardsByDate s date, r.status = "pending") := by
  refine ⟨?_, ?_, ?_⟩
  · by_cases hemp : (getPendingRewardsByDate s date).isEmpty
    · simp [processPendingRewardsForDate, hemp]
    · have h2 := getPendingRewardsByDate_after_process s date now
      simp [processPendingRewardsForDate, hemp, h2]
  · by_cases hemp : (getPendingRewardsByDate s date).isEmpty
    · refine ⟨[], by simp [processPendingRewardsForDate, hemp], ?_, by simp⟩
      rw [List.isEmpty_iff.mp hemp]
      rfl
    · obtain ⟨-, -, added, h1, h2, h3⟩ :=
        processRewardsLoop_state (getPendingRewardsByDate s date) now s
      exact ⟨added, by simp [processPendingRewardsForDate, hemp, h1], h2, h3⟩
  · intro r hr
    exact pendingOn_status _ _ _ (List.mem_filter.mp hr).2

/-- Witness for C9 on the C8 purchase state (two rewards fall due on
day 0): the second run is a no-op on the state produced by the first. -/
theorem processPendingRewards_idempotent_witness :
    (processPendingRewardsForDate
        (processPendingRewardsForDate c8Final 0 0).2 0 1
      = (0, (processPendingRewardsForDate c8Final 0 0).2))
    ∧ (getPendingRewardsByDate c8Final 0).length = 2 :=
  ⟨(processPendingRewards_idempotent c8Final 0 0 1).1,
   by rw [c8Final_eval]; with_unfolding_all rfl⟩

/-- The pure effect of one accepted send on a room's history:
`shift` the oldest entry once the length has reached 100, then `push`. -/
def sendStep (h : List ChatMessage) (m : ChatMessage) : List ChatMessage :=
  if 100 ≤ h.length then h.drop 1 ++ [m] else h ++ [m]

/-- Replacing a present key is observed by `historyFor`. -/
theorem find?_map_replace (l : List (String × List ChatMessage))
    (r : String) (h : List ChatMessage)
    (hs : (l.find? (fun e => e.1 = r)).isSome) :
    (l.map (fun e => if e.1 = r then (r, h) else e)).find? (fun e => e.1 = r)
      = some (r, h) := by
  induction l with
  | nil => simp at hs
  | cons e t ih =>
    by_cases he : e.1 = r
    · simp [List.find?_cons, he]
    · rw [List.find?_cons_of_neg _ (by simpa using he)] at hs
      simp only [List.map_cons, if_neg he]
      rw [List.find?_cons_of_neg _ (by simpa using he)]
      exact ih hs

/-- Appending a fresh key is observed by `historyFor`. -/
theorem find?_append_single (l : List (String × List ChatMessage))
    (r : String) (h : List ChatMessage)
    (hn : l.find? (fun e => e.1 = r) = none) :
    (l ++ [(r, h)]).find? (fun e => e.1 = r) = some (r, h) := by
  induction l with
  | nil => simp [List.find?]
  | cons e t ih =>
    have hall := List.find?_eq_none.mp hn
    have he : ¬ (e.1 = r) := by simpa using hall e (by simp)
    rw [List.cons_append, List.find?_cons_of_neg _ (by simpa using he)]
    exact ih (List.find?_eq_none.mpr (fun x hx => hall x (by simp [hx])))

/-- Roundtrip: `messageHistory.set` followed by `messageHistory.get` on the same
room returns exactly the stored history. -/
theorem historyFor_setHistory (st : ChatState) (r : String)
    (h : List ChatMessage) :
    historyFor (setHistory st r h) r = some h := by
  unfold historyFor setHistory
  cases hf : st.messageHistory.find? (fun e => e.1 = r) with
  | some e0 =>
    simp only [Option.isSome_some, if_true]
    rw [find?_map_replace st.messageHistory r h (by rw [hf]; rfl)]
    rfl
  | none =>
    simp only [Option.isSome_none, Bool.false_eq_true, if_false]
    rw [find?_append_single st.messageHistory r h hf]
    rfl

/-- One accepted `sendMessage` applies `sendStep` to the room's
history (treating a missing room as an empty history). -/
theorem historyFor_sendMessage (st : ChatState) (m : ChatMessage)
    (hc : m.content ≠ "") (hr : m.roomId ≠ "") :
    historyFor (sendMessage st m) m.roomId
      = some (sendStep ((historyFor st m.roomId).getD []) m) := by
  unfold sendMessage
  have hcond : ¬ (m.content = "" ∨ m.roomId = "") := by
    rintro (h | h)
    · exact hc h
    · exact hr h
  rw [if_neg hcond]
  cases hh : historyFor st m.roomId with
  | some history =>
    rw [historyFor_setHistory]
    unfold sendStep
    by_cases hlen : 100 ≤ history.length <;> simp [hlen]
  | none =>
    rw [historyFor_setHistory]
    unfold sendStep
    simp

/-- Folding `sendStep` from an empty history keeps exactly the most
recent 100 messages, in order. -/
theorem foldl_sendStep_drop (L : List ChatMessage) :
    L.foldl sendStep [] = L.drop (L.length - 100) := by
  induction L using List.reverseRecOn with
  | nil => rfl
  | append_singleton L m ih =>
    rw [List.foldl_append, ih]
    simp only [List.foldl_cons, List.foldl_nil]
    unfold sendStep
    rw [List.length_drop]
    by_cases hlen : 100 ≤ L.length - (L.length - 100)
    · rw [if_pos hlen, List.drop_drop, List.length_append, List.length_singleton,
        List.drop_append_eq_append_drop]
      have h100 : 100 ≤ L.length := by omega
      have hidx : L.length - 100 + 1 = L.length + 1 - 100 := by omega
      have hidx2 : L.length + 1 - 100 - L.length = 0 := by omega
      rw [hidx, hidx2, List.drop_zero]
    · rw [if_neg hlen]
      have hlt : L.length < 100 := by omega
      have h0 : L.length - 100 = 0 := by omega
      have h1 : L.length + 1 - 100 = 0 := by omega
      rw [h0, List.drop_zero, List.length_append, List.length_singleton, h1,
        List.drop_zero]

/-- Folding accepted sends over the handler tracks `sendStep` folds on
the room's history. -/
theorem foldl_sendMessage_history (L : List ChatMessage) (r : String)
    (hr : r ≠ "") :
    ∀ (st : ChatState) (h : List ChatMessage),
    (∀ m ∈ L, m.roomId = r ∧ m.content ≠ "") →
    historyFor st r = some h →
    historyFor (L.foldl sendMessage st) r = some (L.foldl sendStep h) := by
  induction L with
  | nil => intro st h _ h0; simpa using h0
  | cons m t ih =>
    intro st h hmsgs h0
    obtain ⟨hmr, hmc⟩ := hmsgs m (by simp)
    rw [List.foldl_cons, List.foldl_cons]
    apply ih (sendMessage st m) (sendStep h m)
      (fun x hx => hmsgs x (by simp [hx]))
    have := historyFor_sendMessage st m hmc (by rw [hmr]; exact hr)
    rw [hmr, h0] at this
    simpa using this

/-- C10 — starting from a room with 0 prior messages, after sending
any list `L` of (non-empty, same-room) messages the room's history is
exactly the most recent `min |L| 100` messages in send order: the
suffix of `L` obtained by dropping `|L| - 100`. -/
theorem sendMessage_history_bounded (r : String) (L : List ChatMessage)
    (st : ChatState) (hr : r ≠ "")
    (hroom : historyFor st r = some [])
    (hmsgs : ∀ m ∈ L, m.roomId = r ∧ m.content ≠ "") :
    historyFor (L.foldl sendMessage st) r = some (L.drop (L.length - 100))
    ∧ (L.drop (L.length - 100)).length = min L.length 100 := by
  constructor
  · rw [foldl_sendMessage_history L r hr st [] hmsgs hroom,
      foldl_sendStep_drop]
  · rw [List.length_drop]; omega

/-- Witness for C10: sending a single message to the freshly seeded
global room leaves a history of exactly that message. -/
theorem sendMessage_history_bounded_witness :
    historyFor
      ([(⟨"1", "alice", "hi", "global"⟩ : ChatMessage)].foldl sendMessage
        ⟨[("global", [])]⟩) "global"
      = some [⟨"1", "alice", "hi", "global"⟩] :=
  (sendMessage_history_bounded "global" [⟨"1", "alice", "hi", "global"⟩]
    ⟨[("global", [])]⟩ (by decide) rfl
    (by intro m hm; rw [List.mem_singleton.mp hm]; exact ⟨rfl, by decide⟩)).1

end LaunchWaitlist
